import Mathlib

/-!
Shallow embedding of the LeafNIRS core (data-model/loader layer and the
processing pipeline) for checking the natural-language specification
against the code.

Conventions of the embedding:
* `float64` values are modelled as real numbers (`ℝ`) in the numeric
  pipeline, and as rationals (`ℚ`) in the loader layer where every
  operation is exact and decidability is wanted.
* A 2-D numpy array is modelled time-major as `List (List α)` (rows =
  timepoints), matching the `(n_time, n_ch)` layout of the source.  HDF5
  datasets and numpy arrays are rectangular; rectangularity is carried as
  a hypothesis (`Mat.Rect`) where a statement needs it.
* Fallible Python code (raised exceptions) is modelled with
  `Option`/`Except`.
-/

namespace LeafNIRS

/-- Decidable equality for `Except`, so that concrete loader and filter
outcomes can be settled by `decide`. -/
instance {ε α : Type} [DecidableEq ε] [DecidableEq α] : DecidableEq (Except ε α) := fun x y =>
  match x, y with
  | .error e, .error f =>
    if h : e = f then .isTrue (by rw [h]) else .isFalse (by intro hc; cases hc; exact h rfl)
  | .ok a, .ok b =>
    if h : a = b then .isTrue (by rw [h]) else .isFalse (by intro hc; cases hc; exact h rfl)
  | .error _, .ok _ => .isFalse (by intro hc; cases hc)
  | .ok _, .error _ => .isFalse (by intro hc; cases hc)

/-- A 2-D array, time-major: each element is one row (one timepoint). -/
abbrev Mat (α : Type) := List (List α)

/-- Column `c` of a matrix (`data[:, c]` in numpy), with `default` when a
row is shorter than `c+1` (never hit on rectangular data with `c` in
range). -/
def Mat.col [Inhabited α] (m : Mat α) (c : ℕ) : List α :=
  m.map (fun r => r.getD c default)

/-- Every row has length `w`: the matrix is a rectangular `m.length × w`
numpy array. -/
def Mat.Rect (m : Mat α) (w : ℕ) : Prop := ∀ r ∈ m, r.length = w

/-- A numpy input that may be 1-D (`ndim == 1`) or 2-D, as accepted by
`intensity_to_od` and `bandpass_filter`. -/
inductive NDInput (α : Type) where
  | oneD (v : List α)
  | twoD (m : Mat α)

/-- `data[:, np.newaxis]` promotion: a 1-D input becomes a single-channel
2-D array; a 2-D input is unchanged. -/
def NDInput.promote : NDInput α → Mat α
  | .oneD v => v.map (fun x => [x])
  | .twoD m => m

end LeafNIRS

namespace LeafNIRS.OD
/-! ## `src/processing/od_converter.py` -/

/-!
A float64 value is modelled as `Option ℝ`: `some r` a finite float,
`none` the NaN that this module itself can create — `np.mean` of an
empty baseline slice is NaN, and `np.maximum`, division and `log10` all
propagate it into the output.
-/

/-- `_EPSILON = 1e-10`: floor for intensity to avoid log(0). -/
noncomputable def _EPSILON : ℝ := 1 / 10 ^ 10

/-- `np.mean` of a float64 vector: NaN when the vector is empty (the
0/0 warning path) or contains a NaN; the arithmetic mean otherwise. -/
noncomputable def listMean? (l : List (Option ℝ)) : Option ℝ :=
  match l.mapM id with
  | none => none
  | some xs => if xs.length = 0 then none else some (xs.sum / (xs.length : ℝ))

/-- Per-channel baseline mean `i0` of `intensity[baseline_start:baseline_end, :]`
(`np.mean(baseline, axis=0)`), for channel `c`. -/
noncomputable def baselineMean? (intensity : Mat (Option ℝ)) (bStart bEnd : ℕ) (c : ℕ) :
    Option ℝ :=
  listMean? (Mat.col ((intensity.take bEnd).drop bStart) c)

/-- `intensity_to_od(intensity, baseline_start, baseline_end)` from
`od_converter.py`: promote a 1-D input to a single channel, compute the
per-channel baseline mean `i0`, clamp both `i0` and every sample at
`_EPSILON` (`np.maximum`, which propagates NaN), and return
`-log10(i_safe / i0)` entrywise; a NaN sample or a NaN `i0` makes the
entry NaN. -/
noncomputable def intensity_to_od (input : NDInput (Option ℝ))
    (baseline_start : ℕ) (baseline_end : Option ℕ) : Mat (Option ℝ) :=
  let intensity := input.promote
  let bEnd := baseline_end.getD intensity.length
  intensity.map (fun row =>
    row.mapIdx (fun c x =>
      match x, baselineMean? intensity baseline_start bEnd c with
      | some xv, some i0 => some (-Real.logb 10 (max xv _EPSILON / max i0 _EPSILON))
      | _, _ => none))

end LeafNIRS.OD

namespace LeafNIRS.Filter
/-! ## `src/processing/bandpass_filter.py` -/

open LeafNIRS

/-- The distinct `ValueError` raise sites of `bandpass_filter`'s
validation; the spec's taxonomy calls all of them `InvalidParameters`. -/
inductive FilterErr where
  | lowNotPos
  | highAboveNyquist
  | lowNotBelowHigh
  | tooShort
  | padlenTooShort
deriving DecidableEq

/-- The numeric core `scipy.signal.butter` + `filtfilt` applied to one
channel: external library code, modelled as an uninterpreted parameter
taking the Butterworth order, the normalized band edges
`low/nyquist`, `high/nyquist`, and the channel samples. -/
abbrev FiltFilt (α : Type) := ℕ → ℚ → ℚ → List α → List α

/-- `bandpass_filter(data, fs, low, high, order)` from
`bandpass_filter.py`: promote 1-D input, validate (each check a distinct
error, in source order), then design the filter and apply it channel by
channel into an array of the input's shape
(`filtered[:, ch] = filtfilt(b, a, data[:, ch])`).

The filtering stage itself can raise: for an order-N bandpass
Butterworth `len(a) = len(b) = 2N+1`, and `scipy.signal.filtfilt` with
the default `padtype` validates `x.shape[axis] > padlen` where
`padlen = 3 * max(len(a), len(b)) = 3*(2N+1)` — strictly greater, while
the module's own check only requires `≥`.  So when at least one channel
exists and the row count is exactly `3*(2*order+1)`, the first
`filtfilt` call raises a ValueError (`padlenTooShort`) after the
module's validation passed.  Past that check the numeric core is the
uninterpreted `ff`. -/
def bandpass_filter [Inhabited α] (ff : FiltFilt α) (input : NDInput α)
    (fs low high : ℚ) (order : ℕ) : Except FilterErr (Mat α) :=
  let data := input.promote
  let nyquist := fs / 2
  if low ≤ 0 then .error .lowNotPos
  else if high ≥ nyquist then .error .highAboveNyquist
  else if low ≥ high then .error .lowNotBelowHigh
  else if data.length < 3 * (2 * order + 1) then .error .tooShort
  else
    let w := (data.headD []).length
    if 0 < w ∧ data.length ≤ 3 * (2 * order + 1) then .error .padlenTooShort
    else
      let cols := (List.range w).map (fun c => ff order (low / nyquist) (high / nyquist) (data.col c))
      .ok ((List.range data.length).map (fun t => cols.map (fun cl => cl.getD t default)))

/-- The disjunction of the four validation conditions of
`bandpass_filter` (over the promoted data's row count). -/
def invalidParams (nRows : ℕ) (fs low high : ℚ) (order : ℕ) : Prop :=
  low ≤ 0 ∨ high ≥ fs / 2 ∨ low ≥ high ∨ nRows < 3 * (2 * order + 1)

instance (nRows : ℕ) (fs low high : ℚ) (order : ℕ) :
    Decidable (invalidParams nRows fs low high order) := by
  unfold invalidParams; infer_instance

end LeafNIRS.Filter

namespace LeafNIRS.Pipeline
/-! ## `src/processing/pipeline.py`

The pipeline's arrays are float64 numpy matrices, modelled with
`Option ℝ` entries (`none` = NaN) like the OD converter whose output the
pipeline stores.  Mutation of `self._result` is modelled by explicit
state passing: each method returns the updated `ProcessingPipeline` (and
its Python return value).  The `scipy` filter core past its pad
validation stays the uninterpreted `FiltFilt (Option ℝ)` parameter
threaded through `apply_bandpass`.
-/

open LeafNIRS LeafNIRS.Filter

/-- `PipelineState`: current stage of the processing pipeline. -/
inductive PipelineState where
  | RAW
  | OD
  | FILTERED
deriving DecidableEq

/-- `PipelineResult`: container for all pipeline outputs (raw matrix,
optional OD and filtered matrices, state tag, last-used filter
parameters). -/
structure PipelineResult where
  raw : Mat (Option ℝ)
  od : Option (Mat (Option ℝ))
  filtered : Option (Mat (Option ℝ))
  state : PipelineState
  filter_low : ℚ
  filter_high : ℚ
  filter_order : ℕ

/-- `PipelineResult.active_data`: the data array for the current
processing state, exactly as the two sequential `if` statements of the
source select it. -/
def PipelineResult.active_data (r : PipelineResult) : Mat (Option ℝ) :=
  match r.state, r.filtered with
  | .FILTERED, some f => f
  | _, _ =>
    match r.state, r.od with
    | .OD, some o => o
    | _, _ => r.raw

/-- The active-array selector as §3 of the spec words it: "Filtered if
present and state is Filtered; else OpticalDensity if present and state
is OpticalDensity; else Raw."  Written from the spec's words, to be
compared with the source's `active_data`. -/
def PipelineResult.active_data_spec (r : PipelineResult) : Mat (Option ℝ) :=
  if r.state = .FILTERED ∧ r.filtered.isSome then r.filtered.getD r.raw
  else if r.state = .OD ∧ r.od.isSome then r.od.getD r.raw
  else r.raw

/-- `ProcessingPipeline`: sampling rate `self._fs` and the result record
`self._result`. -/
structure ProcessingPipeline where
  _fs : ℚ
  _result : PipelineResult

/-- `ProcessingPipeline.__init__(intensity, sampling_rate)`: seeds the
result with a float64 copy of the intensity as `raw`; the other fields
take the dataclass defaults (`od = filtered = None`, `state = RAW`,
parameters zero). -/
def ProcessingPipeline.init (intensity : Mat (Option ℝ)) (sampling_rate : ℚ) : ProcessingPipeline :=
  { _fs := sampling_rate
    _result :=
      { raw := intensity, od := none, filtered := none, state := .RAW
        filter_low := 0, filter_high := 0, filter_order := 0 } }

/-- `ProcessingPipeline.convert_to_od()`: sets `od` to
`intensity_to_od(raw)` (default baseline window), advances state to OD,
clears any previous filtered result, and returns the OD array. -/
noncomputable def ProcessingPipeline.convert_to_od (p : ProcessingPipeline) :
    ProcessingPipeline × Mat (Option ℝ) :=
  let od := OD.intensity_to_od (.twoD p._result.raw) 0 none
  ({ p with _result := { p._result with od := some od, state := .OD, filtered := none } }, od)

/-- `ProcessingPipeline.apply_bandpass(low, high, order)`: if OD has not
been computed yet it is computed first (`convert_to_od`, which also sets
state = OD and clears `filtered`); then `bandpass_filter` is applied to
the OD matrix.  A raised `ValueError` propagates, leaving the
post-promotion state; on success `filtered`, the filter parameters and
`state = FILTERED` are stored. -/
noncomputable def ProcessingPipeline.apply_bandpass (ff : FiltFilt (Option ℝ))
    (p : ProcessingPipeline) (low high : ℚ) (order : ℕ) :
    ProcessingPipeline × Except FilterErr (Mat (Option ℝ)) :=
  let p1 := if p._result.od.isNone then p.convert_to_od.1 else p
  -- `self._result.od` is necessarily set here; `getD []` is never the default.
  match bandpass_filter ff (.twoD (p1._result.od.getD [])) p1._fs low high order with
  | .error e => (p1, .error e)
  | .ok m =>
    ({ p1 with
        _result :=
          { p1._result with
              filtered := some m, filter_low := low, filter_high := high,
              filter_order := order, state := .FILTERED } }, .ok m)

end LeafNIRS.Pipeline

namespace LeafNIRS.IO
/-! ## `src/data_io/` — unified data model and the two loader variants

Numeric file content is modelled over `ℚ` (exact, decidable).  An HDF5
file is modelled by `SnirfSource`: exactly the groups and datasets the
two loaders read, each optional dataset an `Option`.  `h5py` access
(`'name' in group`, `group['name']`, `_read_dataset`) becomes field
access on that structure; the third-party `snirf` library (variant A) is
a schema-aware reader of the same container, so its attribute reads
(`nirs.data[0].dataTimeSeries`, `probe.sourcePos3D`, ...) are modelled
as reads of the same fields, returning `none` where the dataset is
absent.  String/byte decoding is folded away: labels and names arrive
already decoded as `String`s.  The `metaDataTags` map is not modelled
(no claim concerns it, and variant A's `dir()`-based traversal has no
faithful functional rendering).
-/

open LeafNIRS

/-- `ProbeGeometry` from `snirf_loader_base.py`. -/
structure ProbeGeometry where
  source_pos : Mat ℚ
  detector_pos : Mat ℚ
  wavelengths : List ℚ
  source_labels : List String
  detector_labels : List String
deriving DecidableEq

/-- `ChannelInfo` from `snirf_loader_base.py` (1-based indices, numeric
data-type code, optional label). -/
structure ChannelInfo where
  source_index : ℤ
  detector_index : ℤ
  wavelength_index : ℤ
  data_type : ℤ
  data_type_label : String
deriving DecidableEq

/-- The (source, detector, wavelength) index triple of a channel. -/
def ChannelInfo.triple (c : ChannelInfo) : ℤ × ℤ × ℤ :=
  (c.source_index, c.detector_index, c.wavelength_index)

/-- `StimulusInfo` from `snirf_loader_base.py`. -/
structure StimulusInfo where
  name : String
  onset : List ℚ
  duration : List ℚ
  amplitude : List ℚ
deriving DecidableEq

/-- `SNIRFData` from `snirf_loader_base.py` (the unified record; the
`metadata` dict is not modelled). -/
structure SNIRFData where
  intensity : Mat ℚ
  time : List ℚ
  probe : ProbeGeometry
  channels : List ChannelInfo
  stimuli : List StimulusInfo
  filepath : String
deriving DecidableEq

/-- Raw label dataset content as `_read_dataset` + `_unwrap_scalar`
deliver it to `_normalize_labels`: a single decoded string (also the
size-1 byte-array case) or a list of decoded strings. -/
inductive LabelsRaw where
  | one (s : String)
  | many (l : List String)
deriving DecidableEq

/-- A raw numeric HDF5 dataset as stored: 0-d scalar, 1-d vector or 2-d
(rectangular) matrix. -/
inductive RawArray where
  | scalar (x : ℚ)
  | vec (v : List ℚ)
  | mat (m : Mat ℚ)
deriving DecidableEq

/-- `val.size`: the total element count of the stored array. -/
def RawArray.size : RawArray → ℕ
  | .scalar _ => 1
  | .vec v => v.length
  | .mat m => (m.map List.length).sum

/-- `_unwrap_scalar` on a numeric dataset: ANY size-1 array — a `(1,)`
vector and a 1×1 table alike — collapses to the bare Python scalar
(`val.item()`); larger arrays pass through unchanged. -/
def RawArray.unwrap : RawArray → RawArray
  | .scalar x => .scalar x
  | .vec v => if v.length = 1 then .scalar (v.headD 0) else .vec v
  | .mat m =>
    if (m.map List.length).sum = 1 then .scalar ((m.headD []).headD 0) else .mat m

/-- One `measurementList{i}` group; every dataset in it is optional. -/
structure MLRaw where
  sourceIndex : Option ℤ
  detectorIndex : Option ℤ
  wavelengthIndex : Option ℤ
  dataType : Option ℤ
  dataTypeLabel : Option String
deriving DecidableEq

/-- One `stim{i}` group. -/
structure StimRaw where
  name : Option String
  data : Option RawArray
deriving DecidableEq

/-- The `data`/`data1` group: `dataTimeSeries`, `time` (already
ravelled), and the finite collection of `measurementList{i}` sibling
groups actually present, keyed by their number `i`.  HDF5 names are
unique, so keys are distinct; nothing requires them to be consecutive
(a gapped file is representable). -/
structure DataGroup where
  dataTimeSeries : Option (Mat ℚ)
  time : Option (List ℚ)
  measurementLists : List (ℕ × MLRaw)
deriving DecidableEq

/-- The `probe` group. -/
structure ProbeGroup where
  sourcePos3D : Option (Mat ℚ)
  sourcePos2D : Option (Mat ℚ)
  detectorPos3D : Option (Mat ℚ)
  detectorPos2D : Option (Mat ℚ)
  wavelengths : Option (List ℚ)
  sourceLabels : Option LabelsRaw
  detectorLabels : Option LabelsRaw
deriving DecidableEq

/-- The `nirs`/`nirs1` measurement group with the finite collection of
`stim{i}` sibling groups actually present, keyed by their number. -/
structure NirsGroup where
  data : Option DataGroup
  probe : Option ProbeGroup
  stims : List (ℕ × StimRaw)
deriving DecidableEq

/-- A SNIRF container file: `none` when neither `nirs` nor `nirs1`
exists at top level. -/
structure SnirfSource where
  nirs : Option NirsGroup
deriving DecidableEq

/-- Spec §7 error taxonomy plus `internalError` for uncaught
non-taxonomy exceptions (the `IndexError` on a stimulus table with rows
but no columns). -/
inductive LoadError where
  | notFound
  | invalidFormat
  | parseError
  | internalError
deriving DecidableEq

/-!
### Variant B — `snirf_loader_h5py.py`
-/

/-- `_normalize_labels(raw, prefix, count)`: `None` falls back to
auto-generated `S1, S2, ...`/`D1, D2, ...`; a single string is wrapped
in a list; a list is decoded element-wise and returned as is (its length
is NOT checked against `count`). -/
def _normalize_labels (raw : Option LabelsRaw) (pre : String) (count : ℕ) : List String :=
  match raw with
  | none => (List.range count).map (fun i => pre ++ toString (i + 1))
  | some (.one s) => [s]
  | some (.many l) => l

/-- One `measurementList{i}` group → `ChannelInfo`, every missing
dataset defaulting (`_read_dataset(ml_grp, name, 0)` / `''`). -/
def decodeChannelH5 (ml : MLRaw) : ChannelInfo :=
  { source_index := ml.sourceIndex.getD 0
    detector_index := ml.detectorIndex.getD 0
    wavelength_index := ml.wavelengthIndex.getD 0
    data_type := ml.dataType.getD 0
    data_type_label := ml.dataTypeLabel.getD "" }

/-- Variant B's `while True` probe over numbered sibling groups
(`measurementList1`, `measurementList2`, ... or `stim1`, `stim2`, ...):
read group `idx`, then `idx + 1`, ... and stop at the first index with
no group — the termination rule of the source.  `fuel` only bounds the
recursion: `groups.length + 1` suffices, since each hit consumes one of
the finitely many distinct names, so the fuel is never why the probe
stops.  On a gapped file the probe stops at the gap and later groups are
never read. -/
def probeConsecutive (groups : List (ℕ × α)) : ℕ → ℕ → List (ℕ × α)
  | 0, _ => []
  | fuel + 1, idx =>
    match groups.lookup idx with
    | none => []
    | some g => (idx, g) :: probeConsecutive groups fuel (idx + 1)

/-- One `stim{idx}` group in variant B.  Its table arrives through
`_read_dataset` → `_unwrap_scalar`, so a size-1 dataset — including a
1×1 table — reaches the loader as a bare scalar and fails the
`ndim == 2` test (the stimulus is skipped).  Otherwise: skipped unless
the table is 2-D with at least one row; columns 0/1/2 are onset/
duration/amplitude with all-ones defaults for absent columns.  A table
with rows but zero columns makes `stim_arr[:, 0]` raise `IndexError`
(`internalError` here). -/
def decodeStimH5 (idx : ℕ) (st : StimRaw) : Except LoadError (Option StimulusInfo) :=
  let name := st.name.getD ("stim" ++ toString idx)
  match st.data with
  | none => .ok none
  | some arr =>
    match arr.unwrap with
    | .scalar _ => .ok none
    | .vec _ => .ok none
    | .mat m =>
      if m.length = 0 then .ok none
      else if (m.headD []).length = 0 then .error .internalError
      else
        .ok (some
          { name := name
            onset := Mat.col m 0
            duration := if (m.headD []).length > 1 then Mat.col m 1 else List.replicate m.length 1
            amplitude := if (m.headD []).length > 2 then Mat.col m 2 else List.replicate m.length 1 })

/-- Variant B's stimulus loop over the probed `stim{i}` groups. -/
def decodeStimsH5 : List (ℕ × StimRaw) → Except LoadError (List StimulusInfo)
  | [] => .ok []
  | (idx, st) :: rest =>
    match decodeStimH5 idx st with
    | .error e => .error e
    | .ok o =>
    match decodeStimsH5 rest with
    | .error e => .error e
    | .ok tail => .ok (match o with | some s => s :: tail | none => tail)

/-- `SNIRFLoaderH5py._load_impl`: walk the raw container.  A missing
`nirs` group raises `ValueError`; missing required datasets raise
`KeyError` — the spec's taxonomy maps both to `ParseError`. -/
def SNIRFLoaderH5py_load_impl (src : SnirfSource) : Except LoadError SNIRFData :=
  match src.nirs with
  | none => .error .parseError          -- ValueError: "No nirs group found"
  | some nirs =>
  match nirs.data with
  | none => .error .parseError          -- KeyError: neither `data` nor `data1`
  | some dg =>
  match dg.dataTimeSeries with
  | none => .error .parseError          -- KeyError: `dataTimeSeries`
  | some intensity =>
  match dg.time with
  | none => .error .parseError          -- KeyError: `time`
  | some time =>
  match nirs.probe with
  | none => .error .parseError          -- KeyError: `probe`
  | some pg =>
  match pg.sourcePos3D.orElse (fun _ => pg.sourcePos2D) with
  | none => .error .parseError          -- KeyError: `sourcePos2D` (after trying 3-D)
  | some src_pos =>
  match pg.detectorPos3D.orElse (fun _ => pg.detectorPos2D) with
  | none => .error .parseError          -- KeyError: `detectorPos2D`
  | some det_pos =>
  match pg.wavelengths with
  | none => .error .parseError          -- KeyError: `wavelengths`
  | some wavelengths =>
  match decodeStimsH5 (probeConsecutive nirs.stims (nirs.stims.length + 1) 1) with
  | .error e => .error e
  | .ok stimuli =>
    .ok
      { intensity := intensity, time := time
        probe :=
          { source_pos := src_pos, detector_pos := det_pos, wavelengths := wavelengths
            source_labels := _normalize_labels pg.sourceLabels "S" src_pos.length
            detector_labels := _normalize_labels pg.detectorLabels "D" det_pos.length }
        channels :=
          (probeConsecutive dg.measurementLists (dg.measurementLists.length + 1) 1).map
            (fun p => decodeChannelH5 p.2)
        stimuli := stimuli, filepath := "" }

/-!
### Variant A — `snirf_loader_lib.py`
-/

/-- One measurement-list entry in variant A: `int(ml.sourceIndex)` (and
detector/wavelength) raises `TypeError` on a `None` attribute, so a
missing index dataset fails the whole load; `dataType`/`dataTypeLabel`
fall back through the `if ml.dataType else 0` truthiness test. -/
def decodeChannelLib (ml : MLRaw) : Option ChannelInfo :=
  match ml.sourceIndex with
  | none => none
  | some si =>
  match ml.detectorIndex with
  | none => none
  | some di =>
  match ml.wavelengthIndex with
  | none => none
  | some wi =>
    some
      { source_index := si, detector_index := di, wavelength_index := wi
        data_type := ml.dataType.getD 0
        data_type_label := ml.dataTypeLabel.getD "" }

/-- The `for ml in nirs.data[0].measurementList` loop of variant A. -/
def decodeChannelsLib : List MLRaw → Option (List ChannelInfo)
  | [] => some []
  | ml :: rest =>
    match decodeChannelLib ml with
    | none => none
    | some c =>
    match decodeChannelsLib rest with
    | none => none
    | some tail => some (c :: tail)

/-- One stimulus in variant A: `len(stim.data)` raises `TypeError` on a
0-d array (whole load fails); otherwise the same 2-D, nonempty inclusion
rule and the same column defaults as variant B.  `stim.name` falls back
to "unnamed" when `None` or empty. -/
def decodeStimLib (st : StimRaw) : Option (Option StimulusInfo) :=
  match st.data with
  | none => some none
  | some (.scalar _) => none
  | some (.vec _) => some none
  | some (.mat m) =>
    if m.length = 0 then some none
    else if (m.headD []).length = 0 then none   -- sd[:, 0] IndexError
    else
      some (some
        { name :=
            match st.name with
            | some n => if n = "" then "unnamed" else n
            | none => "unnamed"
          onset := Mat.col m 0
          duration := if (m.headD []).length > 1 then Mat.col m 1 else List.replicate m.length 1
          amplitude := if (m.headD []).length > 2 then Mat.col m 2 else List.replicate m.length 1 })

/-- The `for stim in nirs.stim` loop of variant A. -/
def decodeStimsLib : List StimRaw → Option (List StimulusInfo)
  | [] => some []
  | st :: rest =>
    match decodeStimLib st with
    | none => none
    | some o =>
    match decodeStimsLib rest with
    | none => none
    | some tail => some (match o with | some s => s :: tail | none => tail)

/-- `SNIRFLoaderLib._load_impl`: read through the `snirf` library.  Any
raised exception is `none` (the claims never depend on variant A's
exception type).  The library enumerates EVERY indexed sibling group
present in the file (`measurementList*`, `stim*`) — also past a
numbering gap where variant B's probe stops; the enumeration order is
the library's and only consecutively-numbered files, where it is the
stored order, are relied on by any theorem.  Labels are never read from
the source: they are always auto-generated `S{i+1}`/`D{i+1}`. -/
def SNIRFLoaderLib_load_impl (src : SnirfSource) : Option SNIRFData :=
  match src.nirs with
  | none => none                        -- s.nirs[0]: IndexError when absent
  | some nirs =>
  match nirs.data with
  | none => none                        -- nirs.data[0]
  | some dg =>
  match dg.dataTimeSeries with
  | none => none                        -- np.array(None, float64) raises
  | some intensity =>
  match dg.time with
  | none => none
  | some time =>
  match nirs.probe with
  | none => none
  | some pg =>
  match pg.sourcePos3D.orElse (fun _ => pg.sourcePos2D) with
  | none => none
  | some src_pos =>
  match pg.detectorPos3D.orElse (fun _ => pg.detectorPos2D) with
  | none => none
  | some det_pos =>
  match pg.wavelengths with
  | none => none
  | some wavelengths =>
  match decodeChannelsLib (dg.measurementLists.map Prod.snd) with
  | none => none
  | some channels =>
  match decodeStimsLib (nirs.stims.map Prod.snd) with
  | none => none
  | some stimuli =>
    some
      { intensity := intensity, time := time
        probe :=
          { source_pos := src_pos, detector_pos := det_pos, wavelengths := wavelengths
            source_labels := (List.range src_pos.length).map (fun i => "S" ++ toString (i + 1))
            detector_labels := (List.range det_pos.length).map (fun i => "D" ++ toString (i + 1)) }
        channels := channels, stimuli := stimuli, filepath := "" }

/-!
### `SNIRFLoaderBase.load` and `core/data_manager.py`
-/

/-- `str.lower()` on the character list (ASCII paths; kernel-evaluable,
unlike `String.toLower`). -/
def strLower (s : String) : String := ⟨s.data.map Char.toLower⟩

/-- `str.endswith(suffix)` on the character lists. -/
def strEndsWith (s suf : String) : Bool :=
  s.data.reverse.take suf.data.length == suf.data.reverse

/-- `SNIRFLoaderBase.load(filepath)`: existence check
(`FileNotFoundError`), extension check
(`filepath.lower().endswith('.snirf')`, raising `ValueError` — the
spec's `InvalidFormat`), then the variant-specific `_load_impl`, and on
success the base stamps `data.filepath = filepath`.  `isFile` models
`os.path.isfile(filepath)`; `content` is what the path references. -/
def SNIRFLoaderBase_load (impl : SnirfSource → Except LoadError SNIRFData)
    (isFile : Bool) (filepath : String) (content : SnirfSource) :
    Except LoadError SNIRFData :=
  if ¬ isFile then .error .notFound
  else if ¬ (strEndsWith (strLower filepath) ".snirf" = true) then .error .invalidFormat
  else
    match impl content with
    | .error e => .error e
    | .ok d => .ok { d with filepath := filepath }

/-- Variant A's `_load_impl` behind the `Except` interface of the base
loader (its exception kinds collapse to one; no claim depends on them). -/
def SNIRFLoaderLib_load_impl_exc (src : SnirfSource) : Except LoadError SNIRFData :=
  match SNIRFLoaderLib_load_impl src with
  | some d => .ok d
  | none => .error .internalError

/-- The `use_loader` choice of `DataManager`. -/
inductive LoaderKind where
  | snirfLibrary
  | h5pyRaw
deriving DecidableEq

/-- `self._loader.load(...)` for the currently selected loader. -/
def runLoader : LoaderKind → Bool → String → SnirfSource → Except LoadError SNIRFData
  | .h5pyRaw => SNIRFLoaderBase_load SNIRFLoaderH5py_load_impl
  | .snirfLibrary => SNIRFLoaderBase_load SNIRFLoaderLib_load_impl_exc

/-- `DataManager`: the currently held record and the selected loader
(Qt signal emission is outside the model). -/
structure DataManager where
  _data : Option SNIRFData
  _loader : LoaderKind

/-- `DataManager.has_data`. -/
def DataManager.has_data (dm : DataManager) : Bool := dm._data.isSome

/-- `DataManager.load_file(filepath)`: on success stores the new record
and returns `True`; on any loader exception stores `None` (the previous
record is gone) and returns `False`. -/
def DataManager.load_file (dm : DataManager) (isFile : Bool) (filepath : String)
    (content : SnirfSource) : DataManager × Bool :=
  match runLoader dm._loader isFile filepath content with
  | .ok d => ({ dm with _data := some d }, true)
  | .error _ => ({ dm with _data := none }, false)

end LeafNIRS.IO

namespace LeafNIRS.Pipeline
/-! ## Claims about the pipeline state machine -/

open LeafNIRS LeafNIRS.Filter

/-- C5.  The active-array selector of `PipelineResult` is a pure
function of its stored fields (in this embedding it is literally a
function of the record), and it selects exactly as §3 of the spec
describes: the filtered array if present and the state tag is Filtered;
otherwise the OD array if present and the state tag is OpticalDensity;
otherwise the raw array (`active_data_spec` is that description written
from the spec's words). -/
theorem active_data_selector_spec (r : PipelineResult) :
    r.active_data = r.active_data_spec := by
  cases hs : r.state <;> cases hf : r.filtered <;> cases ho : r.od <;>
    simp [PipelineResult.active_data, PipelineResult.active_data_spec, hs, hf, ho]

/-- C6.  `convert_to_od` sets the OD array to the conversion of the
retained raw matrix, discards any existing filtered array, sets the
state tag to OpticalDensity, leaves the raw matrix unchanged, and is
idempotent in effect (a second call stores the same OD array). -/
theorem convert_to_od_spec (p : ProcessingPipeline) :
    p.convert_to_od.1._result.od =
      some (OD.intensity_to_od (.twoD p._result.raw) 0 none) ∧
    p.convert_to_od.1._result.filtered = none ∧
    p.convert_to_od.1._result.state = .OD ∧
    p.convert_to_od.1._result.raw = p._result.raw ∧
    p.convert_to_od.1.convert_to_od.1._result.od = p.convert_to_od.1._result.od := by
  refine ⟨rfl, rfl, rfl, rfl, ?_⟩
  simp [ProcessingPipeline.convert_to_od]

end LeafNIRS.Pipeline

namespace LeafNIRS.IO
/-! ## Claims about the data manager -/

/-- A minimal well-formed source file used to instantiate the loader
claims on concrete input. -/
def tinyML : MLRaw :=
  { sourceIndex := some 1, detectorIndex := some 1, wavelengthIndex := some 1
    dataType := some 1, dataTypeLabel := some "HbO" }

/-- Probe group of the tiny file: 2-D positions only, no label datasets. -/
def tinyProbe : ProbeGroup :=
  { sourcePos3D := none, sourcePos2D := some [[0, 0], [3, 0]]
    detectorPos3D := none, detectorPos2D := some [[1, 0]]
    wavelengths := some [760, 850], sourceLabels := none, detectorLabels := none }

/-- Data group of the tiny file: 3 timepoints × 2 channels. -/
def tinyData : DataGroup :=
  { dataTimeSeries := some [[1, 2], [3, 4], [5, 6]], time := some [0, 1, 2]
    measurementLists := [(1, tinyML), (2, tinyML)] }

/-- One stimulus with a 1×3 table. -/
def tinyStim : StimRaw := { name := some "cond", data := some (.mat [[1, 2, 1]]) }

/-- The tiny source file. -/
def tinySrc : SnirfSource :=
  { nirs := some { data := some tinyData, probe := some tinyProbe, stims := [(1, tinyStim)] } }

/-- The record both loader variants produce from `tinySrc` (before the
base loader stamps the path). -/
def tinyRec : SNIRFData :=
  { intensity := [[1, 2], [3, 4], [5, 6]], time := [0, 1, 2]
    probe :=
      { source_pos := [[0, 0], [3, 0]], detector_pos := [[1, 0]]
        wavelengths := [760, 850]
        source_labels := ["S1", "S2"], detector_labels := ["D1"] }
    channels := [⟨1, 1, 1, 1, "HbO"⟩, ⟨1, 1, 1, 1, "HbO"⟩]
    stimuli := [⟨"cond", [1], [2], [1]⟩]
    filepath := "" }

/-- C10.  `DataManager.load_file`: when the underlying loader raises any
error, afterwards the manager holds no record (`_data` is `None`,
`has_data` is `False`) and the call returns `False` — a previously
loaded record does not survive a failed reload; on success the manager
holds exactly the newly loaded record and the call returns `True`. -/
theorem data_manager_load_file_spec (dm : DataManager) (isFile : Bool)
    (filepath : String) (content : SnirfSource) :
    (∀ e, runLoader dm._loader isFile filepath content = .error e →
      (dm.load_file isFile filepath content).1._data = none ∧
      (dm.load_file isFile filepath content).1.has_data = false ∧
      (dm.load_file isFile filepath content).2 = false) ∧
    (∀ d, runLoader dm._loader isFile filepath content = .ok d →
      (dm.load_file isFile filepath content).1._data = some d ∧
      (dm.load_file isFile filepath content).2 = true) := by
  constructor
  · intro e he
    simp [DataManager.load_file, he, DataManager.has_data]
  · intro d hd
    simp [DataManager.load_file, hd]

/-- "The expected top-level measurement group is absent or required
datasets are missing": the `nirs` group is absent, or the `data` group,
or the `dataTimeSeries`/`time` datasets, or the `probe` group, or both
source (resp. detector) position datasets, or `wavelengths`. -/
def MissingRequired (src : SnirfSource) : Prop :=
  match src.nirs with
  | none => True
  | some ng =>
    match ng.data with
    | none => True
    | some dg =>
      dg.dataTimeSeries = none ∨ dg.time = none ∨
      match ng.probe with
      | none => True
      | some pg =>
        (pg.sourcePos3D = none ∧ pg.sourcePos2D = none) ∨
        (pg.detectorPos3D = none ∧ pg.detectorPos2D = none) ∨
        pg.wavelengths = none

/-- Every `MissingRequired` condition makes the h5py walk raise its
missing-group `ValueError` or a `KeyError` — `parseError` in the spec's
taxonomy. -/
theorem h5py_missing_required (src : SnirfSource) (h : MissingRequired src) :
    SNIRFLoaderH5py_load_impl src = .error .parseError := by
  unfold MissingRequired at h
  unfold SNIRFLoaderH5py_load_impl
  split at h
  next hn => rfl
  next ng hn =>
    split at h
    next hd => rfl
    next dg hd =>
      rcases h with h | h | h
      · simp only [h]
      · cases hts : dg.dataTimeSeries <;> simp only [hts, h]
      · cases hts : dg.dataTimeSeries with
        | none => rfl
        | some ts =>
          simp only [hts]
          cases htm : dg.time with
          | none => rfl
          | some tm =>
            simp only [htm]
            split at h
            next hp => rfl
            next pg hp =>
              rcases h with ⟨h3, h2⟩ | ⟨h3, h2⟩ | h
              · simp only [h3, h2]; rfl
              · cases hsp : pg.sourcePos3D.orElse (fun _ => pg.sourcePos2D) with
                | none => rfl
                | some sp => simp only [hsp, h3, h2]; rfl
              · cases hsp : pg.sourcePos3D.orElse (fun _ => pg.sourcePos2D) with
                | none => rfl
                | some sp =>
                  simp only [hsp]
                  cases hdp : pg.detectorPos3D.orElse (fun _ => pg.detectorPos2D) with
                  | none => rfl
                  | some dp => simp only [hdp, h]

/-- C8.  `load(path)` on the raw-h5py-backed loader: `NotFound` when the
path is not an existing regular file; `InvalidFormat` when its
(lower-cased) extension is not `.snirf`; `ParseError` when the `nirs`
measurement group is absent or a required dataset is missing; and on
success the returned record's `filepath` equals the input path. -/
theorem loader_base_contract (isFile : Bool) (filepath : String) (content : SnirfSource) :
    (isFile = false →
      SNIRFLoaderBase_load SNIRFLoaderH5py_load_impl isFile filepath content =
        .error .notFound) ∧
    (isFile = true → strEndsWith (strLower filepath) ".snirf" = false →
      SNIRFLoaderBase_load SNIRFLoaderH5py_load_impl isFile filepath content =
        .error .invalidFormat) ∧
    (isFile = true → strEndsWith (strLower filepath) ".snirf" = true →
      MissingRequired content →
      SNIRFLoaderBase_load SNIRFLoaderH5py_load_impl isFile filepath content =
        .error .parseError) ∧
    (∀ d, SNIRFLoaderBase_load SNIRFLoaderH5py_load_impl isFile filepath content = .ok d →
      d.filepath = filepath) := by
  refine ⟨?_, ?_, ?_, ?_⟩
  · intro h; simp [SNIRFLoaderBase_load, h]
  · intro h1 h2; simp [SNIRFLoaderBase_load, h1, h2]
  · intro h1 h2 h3
    simp [SNIRFLoaderBase_load, h1, h2, h5py_missing_required content h3]
  · intro d hd
    unfold SNIRFLoaderBase_load at hd
    split_ifs at hd
    cases himpl : SNIRFLoaderH5py_load_impl content <;> rw [himpl] at hd
    · cases hd
    · cases hd; rfl

/-- A path with the wrong extension and an empty container, for the C8
witness. -/
def emptySrc : SnirfSource := { nirs := none }

/-- Witness for C8 at concrete inputs: each error branch fires on a
concrete bad input, and a successful load of `tinySrc` under
`"a.snirf"` carries the path. -/
theorem loader_base_contract_witness :
    SNIRFLoaderBase_load SNIRFLoaderH5py_load_impl false "a.snirf" tinySrc =
      .error .notFound ∧
    SNIRFLoaderBase_load SNIRFLoaderH5py_load_impl true "a.txt" tinySrc =
      .error .invalidFormat ∧
    SNIRFLoaderBase_load SNIRFLoaderH5py_load_impl true "a.snirf" emptySrc =
      .error .parseError ∧
    ({ tinyRec with filepath := "a.snirf" } : SNIRFData).filepath = "a.snirf" := by
  refine ⟨?_, ?_, ?_, ?_⟩
  · exact (loader_base_contract false "a.snirf" tinySrc).1 rfl
  · exact (loader_base_contract true "a.txt" tinySrc).2.1 rfl (by decide)
  · exact (loader_base_contract true "a.snirf" emptySrc).2.2.1 rfl (by decide) trivial
  · exact (loader_base_contract true "a.snirf" tinySrc).2.2.2
      { tinyRec with filepath := "a.snirf" } (by decide)

/-- Per-channel conformance: whenever variant A decodes a
measurement-list entry (all three index datasets present), variant B's
decode of the same entry carries the same (source, detector, wavelength)
triple. -/
theorem channel_triple_conformance (ml : MLRaw) (c : ChannelInfo)
    (h : decodeChannelLib ml = some c) :
    (decodeChannelH5 ml).triple = c.triple := by
  unfold decodeChannelLib at h
  repeat' split at h
  all_goals cases h
  simp [decodeChannelH5, ChannelInfo.triple, *]

/-- Channel-list conformance: a successful variant-A decode of the
measurement lists yields the same triples as variant B's decode. -/
theorem channels_conformance (mls : List MLRaw) (cs : List ChannelInfo)
    (h : decodeChannelsLib mls = some cs) :
    cs.map ChannelInfo.triple = (mls.map decodeChannelH5).map ChannelInfo.triple := by
  induction mls generalizing cs with
  | nil => cases h; rfl
  | cons ml rest ih =>
    unfold decodeChannelsLib at h
    split at h
    · cases h
    · rename_i c hc
      split at h
      · cases h
      · rename_i tail htail
        cases h
        simp only [List.map_cons]
        rw [channel_triple_conformance ml c hc, ih tail htail]

/-- Per-stimulus conformance, AWAY from the size-1 divergence: for a
stimulus group whose stored table is not a single-element matrix,
whenever variant A's decode does not raise, variant B's decode succeeds
and includes/skips the stimulus exactly when variant A does.  (A 1×1
table IS included by variant A and skipped by variant B — see
`loader_divergence_cex`.) -/
theorem stim_decode_conformance (st : StimRaw) (o : Option StimulusInfo) (i : ℕ)
    (hsz : ∀ m, st.data = some (.mat m) → (m.map List.length).sum ≠ 1)
    (h : decodeStimLib st = some o) :
    ∃ o2, decodeStimH5 i st = .ok o2 ∧ (o2.isSome = o.isSome) := by
  unfold decodeStimLib at h
  unfold decodeStimH5
  split at h
  next hd =>
    cases h
    simp only [hd]
    exact ⟨none, rfl, rfl⟩
  next x hd =>
    cases h
  next v hd =>
    cases h
    refine ⟨none, ?_, rfl⟩
    simp only [hd, RawArray.unwrap]
    by_cases h1 : v.length = 1 <;> simp [h1]
  next m hd =>
    have hsz2 : (m.map List.length).sum ≠ 1 := hsz m hd
    simp only [hd, RawArray.unwrap, if_neg hsz2]
    by_cases h0 : m.length = 0
    · rw [if_pos h0] at h
      cases h
      rw [if_pos h0]
      exact ⟨none, rfl, rfl⟩
    · rw [if_neg h0] at h
      rw [if_neg h0]
      by_cases hw : (m.headD []).length = 0
      · rw [if_pos hw] at h
        cases h
      · rw [if_neg hw] at h
        cases h
        rw [if_neg hw]
        exact ⟨_, rfl, rfl⟩

/-- Stimulus-list conformance over the same groups, none of them a
single-element table: when both variants' stimulus loops succeed, the
produced lists have equal length. -/
theorem stims_conformance (l : List (ℕ × StimRaw)) :
    ∀ (sa sb : List StimulusInfo),
      (∀ p ∈ l, ∀ m, p.2.data = some (.mat m) → (m.map List.length).sum ≠ 1) →
      decodeStimsLib (l.map Prod.snd) = some sa → decodeStimsH5 l = .ok sb →
      sa.length = sb.length := by
  induction l with
  | nil =>
    intro sa sb _ ha hb
    cases ha; cases hb; rfl
  | cons p rest ih =>
    intro sa sb hsz ha hb
    obtain ⟨idx, st⟩ := p
    simp only [List.map_cons] at ha
    unfold decodeStimsLib at ha
    unfold decodeStimsH5 at hb
    split at ha
    · cases ha
    · rename_i o ho
      split at ha
      · cases ha
      · rename_i tail htail
        cases ha
        split at hb
        · cases hb
        · rename_i o2 ho2
          split at hb
          · cases hb
          · rename_i tail2 htail2
            cases hb
            obtain ⟨o3, ho3, hsome⟩ := stim_decode_conformance st o idx
              (fun m hm => hsz (idx, st) (List.mem_cons_self _ _) m hm) ho
            rw [ho3] at ho2
            cases ho2
            have hlen := ih tail tail2
              (fun q hq => hsz q (List.mem_cons_of_mem _ hq)) htail htail2
            cases o <;> cases o2 <;> simp_all

/-- Looking up an index above a leading key skips that entry: a probe
that starts past `k` never reads `(k, g)`. -/
theorem probeConsecutive_cons_skip {α : Type} (k : ℕ) (g : α) (rest : List (ℕ × α)) :
    ∀ (fuel j : ℕ), k < j →
      probeConsecutive ((k, g) :: rest) fuel j = probeConsecutive rest fuel j := by
  intro fuel
  induction fuel with
  | zero => intro j _; rfl
  | succ n ih =>
    intro j hj
    unfold probeConsecutive
    have hne : (j == k) = false := by
      simp only [beq_eq_false_iff_ne, ne_eq]
      omega
    have hlk : ((k, g) :: rest).lookup j = rest.lookup j := by
      simp [List.lookup, hne]
    rw [hlk]
    cases h : rest.lookup j with
    | none => rfl
    | some g2 => rw [ih (j + 1) (by omega)]

/-- On a file whose sibling groups are numbered consecutively from `i`,
variant B's probe starting at `i` returns exactly the stored groups
(the fuel, one past the group count, never runs out first). -/
theorem probeConsecutive_eq {α : Type} :
    ∀ (groups : List (ℕ × α)) (i : ℕ),
      groups.map Prod.fst = List.range' i groups.length →
      probeConsecutive groups (groups.length + 1) i = groups := by
  intro groups
  induction groups with
  | nil => intro i _; rfl
  | cons p rest ih =>
    intro i hkeys
    obtain ⟨k, g⟩ := p
    have hr : List.range' i (rest.length + 1) = i :: List.range' (i + 1) rest.length := rfl
    rw [List.map_cons, List.length_cons, hr] at hkeys
    injection hkeys with hk hrest
    subst hk
    show probeConsecutive ((k, g) :: rest) (rest.length + 1 + 1) k = (k, g) :: rest
    unfold probeConsecutive
    have hlk : ((k, g) :: rest).lookup k = some g := by simp [List.lookup]
    rw [hlk]
    rw [probeConsecutive_cons_skip k g rest (rest.length + 1) (k + 1) (by omega),
      ih (k + 1) hrest]

/-- A file whose only stimulus carries a 1×1 data table, readable by
both variants. -/
def scalarStimSrc : SnirfSource :=
  { nirs := some
      { data := some { tinyData with measurementLists := [(1, tinyML)] }
        probe := some tinyProbe
        stims := [(1, { name := some "s", data := some (.mat [[2]]) })] } }

/-- A file whose channel groups jump from `measurementList1` to
`measurementList3`, readable by both variants. -/
def gappedSrc : SnirfSource :=
  { nirs := some
      { data := some { tinyData with measurementLists := [(1, tinyML), (3, tinyML)] }
        probe := some tinyProbe
        stims := [] } }

/-- Counterexample for C1: two source files readable by both variants on
which the produced records differ.  On `scalarStimSrc` the 1×1 stimulus
table reaches variant B through `_unwrap_scalar`, is collapsed to a
scalar, fails the `ndim == 2` test and is skipped (0 stimuli), while
variant A reads the stored (1,1) array and includes it (1 stimulus) —
so "equal stimulus counts" fails.  On `gappedSrc` variant B's probe
stops at the missing `measurementList2` (1 channel) while the library
enumerates both present groups (2 channels) — so the channel triples
differ too. -/
theorem loader_divergence_cex :
    (SNIRFLoaderLib_load_impl scalarStimSrc).map (fun r => r.stimuli.length) = some 1 ∧
    (SNIRFLoaderH5py_load_impl scalarStimSrc).toOption.map (fun r => r.stimuli.length) =
      some 0 ∧
    (SNIRFLoaderLib_load_impl gappedSrc).map (fun r => r.channels.length) = some 2 ∧
    (SNIRFLoaderH5py_load_impl gappedSrc).toOption.map (fun r => r.channels.length) =
      some 1 := by decide

/-- C1 as amended: whenever both variants read the same source file
successfully, the sibling groups are numbered consecutively from 1
(variant B's probe stops at the first numbering gap, the library does
not), and no stimulus table is a single-element matrix (variant B's
`_unwrap_scalar` collapses it to a scalar and skips it, variant A
includes it), the produced records have equal intensity matrices, time
vectors, source and detector position matrices, wavelength lists,
per-channel (source, detector, wavelength) triples, and equal stimulus
counts.  Labels can only differ when the file carries source-provided
label datasets (which variant A never recovers): when no label dataset
is present both variants auto-generate identical labels. -/
theorem loader_conformance_amended (src : SnirfSource) (ra rb : SNIRFData)
    (ha : SNIRFLoaderLib_load_impl src = some ra)
    (hb : SNIRFLoaderH5py_load_impl src = .ok rb)
    (hml : ∀ ng dg, src.nirs = some ng → ng.data = some dg →
      dg.measurementLists.map Prod.fst = List.range' 1 dg.measurementLists.length)
    (hstn : ∀ ng, src.nirs = some ng →
      ng.stims.map Prod.fst = List.range' 1 ng.stims.length)
    (hsz : ∀ ng, src.nirs = some ng → ∀ p ∈ ng.stims, ∀ m,
      p.2.data = some (RawArray.mat m) → (m.map List.length).sum ≠ 1) :
    ra.intensity = rb.intensity ∧
    ra.time = rb.time ∧
    ra.probe.source_pos = rb.probe.source_pos ∧
    ra.probe.detector_pos = rb.probe.detector_pos ∧
    ra.probe.wavelengths = rb.probe.wavelengths ∧
    ra.channels.map ChannelInfo.triple = rb.channels.map ChannelInfo.triple ∧
    ra.stimuli.length = rb.stimuli.length ∧
    (∀ ng pg, src.nirs = some ng → ng.probe = some pg →
      (pg.sourceLabels = none → ra.probe.source_labels = rb.probe.source_labels) ∧
      (pg.detectorLabels = none → ra.probe.detector_labels = rb.probe.detector_labels)) := by
  unfold SNIRFLoaderLib_load_impl at ha
  unfold SNIRFLoaderH5py_load_impl at hb
  cases hn : src.nirs with
  | none => simp [hn] at ha
  | some ng =>
  simp only [hn] at ha hb
  cases hd : ng.data with
  | none => simp [hd] at ha
  | some dg =>
  simp only [hd] at ha hb
  cases hts : dg.dataTimeSeries with
  | none => simp [hts] at ha
  | some ts =>
  simp only [hts] at ha hb
  cases htm : dg.time with
  | none => simp [htm] at ha
  | some tm =>
  simp only [htm] at ha hb
  cases hp : ng.probe with
  | none => simp [hp] at ha
  | some pg =>
  simp only [hp] at ha hb
  cases hsp : pg.sourcePos3D.orElse (fun _ => pg.sourcePos2D) with
  | none => simp [hsp] at ha
  | some sp =>
  simp only [hsp] at ha hb
  cases hdp : pg.detectorPos3D.orElse (fun _ => pg.detectorPos2D) with
  | none => simp [hdp] at ha
  | some dp =>
  simp only [hdp] at ha hb
  cases hwl : pg.wavelengths with
  | none => simp [hwl] at ha
  | some wl =>
  simp only [hwl] at ha hb
  cases hch : decodeChannelsLib (dg.measurementLists.map Prod.snd) with
  | none => simp [hch] at ha
  | some channelsA =>
  simp only [hch] at ha
  cases hstl : decodeStimsLib (ng.stims.map Prod.snd) with
  | none => simp [hstl] at ha
  | some stimsA =>
  simp only [hstl] at ha
  cases hsth : decodeStimsH5 (probeConsecutive ng.stims (ng.stims.length + 1) 1) with
  | error e => simp [hsth] at hb
  | ok stimsB =>
  simp only [hsth] at hb
  cases ha
  cases hb
  refine ⟨rfl, rfl, rfl, rfl, rfl, ?_, ?_, ?_⟩
  · have hpc := probeConsecutive_eq dg.measurementLists 1 (hml ng dg hn hd)
    have hcc := channels_conformance (dg.measurementLists.map Prod.snd) channelsA hch
    simp only [hpc, List.map_map]
    simpa [List.map_map, Function.comp] using hcc
  · have hps := probeConsecutive_eq ng.stims 1 (hstn ng hn)
    rw [hps] at hsth
    exact stims_conformance ng.stims stimsA stimsB (hsz ng hn) hstl hsth
  · intro ng2 pg2 hng2 hp2
    cases hng2
    rw [hp] at hp2
    cases hp2
    constructor
    · intro hsl; simp [hsl, _normalize_labels]
    · intro hdl; simp [hdl, _normalize_labels]

/-- Witness for C1 (amended) at concrete input: `tinySrc` is
consecutively numbered with a 1×3 stimulus table; both variants succeed
(producing `tinyRec`) and the conformance fields agree. -/
theorem loader_conformance_amended_witness :
    tinyRec.channels.map ChannelInfo.triple = tinyRec.channels.map ChannelInfo.triple ∧
    tinyRec.stimuli.length = tinyRec.stimuli.length ∧
    tinyRec.probe.source_labels = tinyRec.probe.source_labels := by
  have h := loader_conformance_amended tinySrc tinyRec tinyRec (by decide) (by decide)
    (by intro ng dg h1 h2; cases h1; cases h2; decide)
    (by intro ng h1; cases h1; decide)
    (by intro ng h1 p hp m hm
        cases h1
        simp only [List.mem_singleton] at hp
        subst hp
        simp only [tinyStim] at hm
        cases hm
        decide)
  exact ⟨h.2.2.2.2.2.1, h.2.2.2.2.2.2.1,
    (h.2.2.2.2.2.2.2 _ _ rfl rfl).1 rfl⟩

/-- A source file with two source positions but three source labels:
`_normalize_labels` copies the provided list without checking its count
against the position count. -/
def labelMismatchSrc : SnirfSource :=
  { nirs := some
      { data := some tinyData
        probe := some { tinyProbe with sourceLabels := some (.many ["A", "B", "C"]) }
        stims := [] } }

/-- Counterexample for C7: on `labelMismatchSrc` the h5py variant
succeeds and returns a `ProbeGeometry` with 3 source labels for 2
source positions — the claimed invariant fails when labels are read
from the source data. -/
theorem probe_label_count_mismatch_cex :
    (SNIRFLoaderH5py_load_impl labelMismatchSrc).toOption.map
        (fun r => decide (r.probe.source_labels.length = r.probe.source_pos.length)) =
      some false := by decide

/-- C7 as amended: variant A always auto-generates one label per
position, so its records satisfy the invariant; variant B satisfies it
whenever the file provides no label dataset (auto-generated fallback) —
but when variant B reads labels from the source it copies them without
validating their count against the position count. -/
theorem probe_label_counts_amended (src : SnirfSource) :
    (∀ ra, SNIRFLoaderLib_load_impl src = some ra →
      ra.probe.source_labels.length = ra.probe.source_pos.length ∧
      ra.probe.detector_labels.length = ra.probe.detector_pos.length) ∧
    (∀ rb ng pg, SNIRFLoaderH5py_load_impl src = .ok rb →
      src.nirs = some ng → ng.probe = some pg →
      (pg.sourceLabels = none →
        rb.probe.source_labels.length = rb.probe.source_pos.length) ∧
      (pg.detectorLabels = none →
        rb.probe.detector_labels.length = rb.probe.detector_pos.length)) := by
  constructor
  · intro ra ha
    unfold SNIRFLoaderLib_load_impl at ha
    repeat' split at ha
    all_goals cases ha
    all_goals simp
  · intro rb ng pg hb hng hp
    unfold SNIRFLoaderH5py_load_impl at hb
    repeat' split at hb
    all_goals try cases hb
    all_goals refine ⟨fun hsl => ?_, fun hdl => ?_⟩ <;> simp_all [_normalize_labels]

/-- Witness for C7 (amended) at concrete input: on `tinySrc` (no label
datasets) both variants produce matching label/position counts. -/
theorem probe_label_counts_amended_witness :
    tinyRec.probe.source_labels.length = tinyRec.probe.source_pos.length ∧
    tinyRec.probe.detector_labels.length = tinyRec.probe.detector_pos.length := by
  exact (probe_label_counts_amended tinySrc).1 tinyRec (by decide)

/-- A manager already holding `tinyRec` (to see whether it survives a
failed reload). -/
def dmWit : DataManager := { _data := some tinyRec, _loader := .h5pyRaw }

/-- Witness for C10 at concrete input: a failing load (`isFile = false`)
clears the previously held record and returns `False`; a successful load
of `tinySrc` stores the stamped record and returns `True`. -/
theorem data_manager_load_file_spec_witness :
    (dmWit.load_file false "a.snirf" tinySrc).1._data = none ∧
    (dmWit.load_file false "a.snirf" tinySrc).1.has_data = false ∧
    (dmWit.load_file false "a.snirf" tinySrc).2 = false ∧
    (dmWit.load_file true "a.snirf" tinySrc).1._data =
      some { tinyRec with filepath := "a.snirf" } ∧
    (dmWit.load_file true "a.snirf" tinySrc).2 = true := by
  obtain ⟨h1, h2, h3⟩ :=
    (data_manager_load_file_spec dmWit false "a.snirf" tinySrc).1 .notFound (by decide)
  obtain ⟨h4, h5⟩ :=
    (data_manager_load_file_spec dmWit true "a.snirf" tinySrc).2
      { tinyRec with filepath := "a.snirf" } (by decide)
  exact ⟨h1, h2, h3, h4, h5⟩

end LeafNIRS.IO

namespace LeafNIRS.Filter
/-! ## Claims about the bandpass filter -/

open LeafNIRS

/-- For a nonempty list, `(List.range l.length).map (l.getD · default)`
reassembles the list (used for the per-channel reassembly of the
filtered matrix). -/
theorem range_map_getD {α : Type} [Inhabited α] (l : List α) :
    (List.range l.length).map (fun t => l.getD t default) = l := by
  apply List.ext_getElem
  · simp
  · intro i h1 h2
    simp only [List.getElem_map, List.getElem_range]
    exact List.getD_eq_getElem l default h2

/-- `bandpass_filter` raises exactly when one of the module's four
validation conditions holds OR — with at least one channel present —
the row count is within scipy's `filtfilt` pad bound (at most
`3*(2*order+1)`); the outcome does not depend on the uninterpreted
filter core `ff`. -/
theorem bandpass_isError_iff {α : Type} [Inhabited α] (ff : FiltFilt α)
    (input : NDInput α) (fs low high : ℚ) (order : ℕ) :
    (∃ e, bandpass_filter ff input fs low high order = .error e) ↔
      (low ≤ 0 ∨ high ≥ fs / 2 ∨ low ≥ high ∨
        input.promote.length < 3 * (2 * order + 1) ∨
        (0 < (input.promote.headD []).length ∧
          input.promote.length ≤ 3 * (2 * order + 1))) := by
  unfold bandpass_filter
  by_cases h1 : low ≤ 0
  · simp [h1]
  · by_cases h2 : high ≥ fs / 2
    · simp [h1, h2]
    · by_cases h3 : low ≥ high
      · simp [h1, h2, h3]
      · by_cases h4 : input.promote.length < 3 * (2 * order + 1)
        · simp [h1, h2, h3, h4]
        · by_cases h5 : 0 < ((input.promote.head?).getD []).length ∧
              input.promote.length ≤ 3 * (2 * order + 1)
          · simp [h1, h2, h3, h4, h5, List.headD_eq_head?]
          · simp [h1, h2, h3, h4, h5, List.headD_eq_head?]

/-- On the success path `bandpass_filter` returns a matrix of the
promoted input's shape whose column `c` is the filter core applied to
input column `c` (channels are processed independently). -/
theorem bandpass_ok_spec {α : Type} [Inhabited α] (ff : FiltFilt α)
    (input : NDInput α) (fs low high : ℚ) (order : ℕ) (m : Mat α) (w : ℕ)
    (hrect : input.promote.Rect w)
    (hff : ∀ o a b l, (ff o a b l).length = l.length)
    (hok : bandpass_filter ff input fs low high order = .ok m) :
    m.length = input.promote.length ∧ m.Rect w ∧
    ∀ c, c < w →
      m.col c = ff order (low / (fs / 2)) (high / (fs / 2)) (input.promote.col c) := by
  unfold bandpass_filter at hok
  by_cases h1 : low ≤ 0
  · rw [if_pos h1] at hok; cases hok
  rw [if_neg h1] at hok
  by_cases h2 : high ≥ fs / 2
  · rw [if_pos h2] at hok; cases hok
  rw [if_neg h2] at hok
  by_cases h3 : low ≥ high
  · rw [if_pos h3] at hok; cases hok
  rw [if_neg h3] at hok
  by_cases h4 : input.promote.length < 3 * (2 * order + 1)
  · rw [if_pos h4] at hok; cases hok
  rw [if_neg h4] at hok
  by_cases h5 : 0 < (input.promote.headD []).length ∧
      input.promote.length ≤ 3 * (2 * order + 1)
  · rw [if_pos h5] at hok; cases hok
  rw [if_neg h5] at hok
  injection hok with hok
  subst hok
  have hne : input.promote ≠ [] := by
    intro hemp
    rw [hemp] at h4
    simp at h4
  have hw : (input.promote.headD []).length = w := by
    cases hp : input.promote with
    | nil => exact absurd hp hne
    | cons r rest => simpa using hrect r (by rw [hp]; exact List.mem_cons_self r rest)
  refine ⟨by simp, ?_, ?_⟩
  · intro row hrow
    simp only [List.mem_map] at hrow
    obtain ⟨t, _, hrw⟩ := hrow
    rw [← hrw]
    simp only [List.length_map, List.length_range]
    exact hw
  · intro c hc
    apply List.ext_getElem
    · simp only [Mat.col, List.length_map, List.length_range, hff]
    · intro i hi1 hi2
      have hi : i < input.promote.length := by
        simpa only [Mat.col, List.length_map, List.length_range] using hi1
      simp only [Mat.col, List.getElem_map, List.getElem_range]
      rw [List.getD_eq_getElem _ default
        (by simp only [List.length_map, List.length_range, hw]; exact hc)]
      simp only [List.getElem_map, List.getElem_range]
      exact List.getD_eq_getElem _ default (by simpa only [hff, Mat.col,
        List.length_map] using hi)

end LeafNIRS.Filter

namespace LeafNIRS.Filter

open LeafNIRS

/-- Rectangularity of a concrete matrix is decidable. -/
instance {α : Type} (m : Mat α) (w : ℕ) : Decidable (m.Rect w) := by
  unfold Mat.Rect
  infer_instance

/-- Counterexample for C3: with `order = 0` and exactly
`3 × (2×0 + 1) = 3` samples the module's own length check
(`len(data) < 3*(2*order+1)`) passes — so none of the claim's four
conditions holds — yet `scipy.signal.filtfilt`'s default `padlen
= 3 × max(len(a), len(b)) = 3*(2*order+1)` requires *strictly more*
samples than that and raises `ValueError`; the call fails although the
claim's iff says it must succeed, and the promised filtered array of
the input's shape is never produced. -/
theorem bandpass_padlen_cex :
    ¬ invalidParams 3 10 1 2 0 ∧
    bandpass_filter (α := ℚ) (fun _ _ _ l => l) (.twoD [[1], [2], [3]]) 10 1 2 0 =
      .error .padlenTooShort := by
  constructor
  · norm_num [invalidParams]
  · simp only [bandpass_filter, NDInput.promote]
    norm_num

/-- C3 as amended: `bandpass_filter` raises a `ValueError` if and only
if `low ≤ 0`, or `high ≥ samplingRate/2`, or `low ≥ high`, or the
per-channel sample count is below `3 × (2×order + 1)` (the module's own
validation, `invalidParams`), or — one sample past that bound — the
data is nonempty and the sample count is exactly `3 × (2×order + 1)`,
where the validation passes but `scipy.signal.filtfilt`'s default
`padlen` check raises.  A failing call never produces a partial result
(the outcome is independent of the filter core `ff`, which is only
reached on the success path), and a passing call returns a matrix of
the promoted input's shape whose column `c` is the filter core applied
to input column `c` independently per channel. -/
theorem bandpass_filter_validation_amended {α : Type} [Inhabited α] (ff : FiltFilt α)
    (input : NDInput α) (fs low high : ℚ) (order : ℕ) (w : ℕ)
    (hrect : input.promote.Rect w)
    (hff : ∀ o a b l, (ff o a b l).length = l.length) :
    ((∃ e, bandpass_filter ff input fs low high order = .error e) ↔
      (invalidParams input.promote.length fs low high order ∨
        (0 < (input.promote.headD []).length ∧
          input.promote.length ≤ 3 * (2 * order + 1)))) ∧
    (∀ m, bandpass_filter ff input fs low high order = .ok m →
      m.length = input.promote.length ∧ m.Rect w ∧
      ∀ c, c < w →
        m.col c = ff order (low / (fs / 2)) (high / (fs / 2)) (input.promote.col c)) := by
  refine ⟨?_, fun m hok => bandpass_ok_spec ff input fs low high order m w hrect hff hok⟩
  rw [bandpass_isError_iff]
  unfold invalidParams
  tauto

/-- Witness for C3 (amended) at concrete input: with `fs = 10`, a 4×2
matrix and `order = 0` (so 4 samples exceed the `padlen` bound 3),
`low = 0` trips the validation, while `low = 1, high = 2` passes every
stage and the identity filter core returns the input unchanged. -/
theorem bandpass_filter_validation_amended_witness :
    (∃ e, bandpass_filter (α := ℚ) (fun _ _ _ l => l)
      (.twoD [[1, 2], [3, 4], [5, 6], [7, 8]]) 10 0 2 0 = .error e) ∧
    ([[1, 2], [3, 4], [5, 6], [7, 8]] : Mat ℚ).length =
      (NDInput.twoD ([[1, 2], [3, 4], [5, 6], [7, 8]] : Mat ℚ)).promote.length ∧
    Mat.Rect ([[1, 2], [3, 4], [5, 6], [7, 8]] : Mat ℚ) 2 := by
  have hok : bandpass_filter (α := ℚ) (fun _ _ _ l => l)
      (.twoD [[1, 2], [3, 4], [5, 6], [7, 8]]) 10 1 2 0 =
      .ok [[1, 2], [3, 4], [5, 6], [7, 8]] := by
    simp only [bandpass_filter, NDInput.promote]
    norm_num [Mat.col, List.range_succ]
  have h := (bandpass_filter_validation_amended (fun _ _ _ l => l)
    (.twoD [[1, 2], [3, 4], [5, 6], [7, 8]]) 10 1 2 0 2 (by decide)
    (fun _ _ _ _ => rfl)).2 [[1, 2], [3, 4], [5, 6], [7, 8]] hok
  refine ⟨?_, h.1, h.2.1⟩
  exact (bandpass_filter_validation_amended (fun _ _ _ l => l)
    (.twoD [[1, 2], [3, 4], [5, 6], [7, 8]]) 10 0 2 0 2 (by decide)
    (fun _ _ _ _ => rfl)).1.mpr (Or.inl (Or.inl (by norm_num)))

end LeafNIRS.Filter

namespace LeafNIRS.OD
/-! ## Claims about the optical-density converter -/

open LeafNIRS

/-- The clamping floor is strictly positive. -/
theorem _EPSILON_pos : 0 < _EPSILON := by norm_num [_EPSILON]

/-- `mapM id` over a list of all-finite entries succeeds, with as many
values as entries. -/
theorem mapM_id_isSome (l : List (Option ℝ)) :
    (∀ x ∈ l, x.isSome) → ∃ xs, l.mapM id = some xs ∧ xs.length = l.length := by
  rw [← List.mapM'_eq_mapM]
  induction l with
  | nil => intro _; exact ⟨[], rfl, rfl⟩
  | cons x xs ih =>
    intro h
    obtain ⟨v, hv⟩ := Option.isSome_iff_exists.mp (h x (List.mem_cons_self x xs))
    obtain ⟨ys, hys, hlen⟩ := ih (fun y hy => h y (List.mem_cons_of_mem x hy))
    exact ⟨v :: ys, by simp [List.mapM', hv, hys], by simp [hlen]⟩

/-- `mapM id` over an all-equal list of finite entries yields the
constant value list. -/
theorem mapM_id_const (l : List (Option ℝ)) (a : ℝ) :
    (∀ x ∈ l, x = some a) → l.mapM id = some (List.replicate l.length a) := by
  rw [← List.mapM'_eq_mapM]
  induction l with
  | nil => intro _; rfl
  | cons x xs ih =>
    intro h
    have hx : x = some a := h x (List.mem_cons_self x xs)
    have hxs := ih (fun y hy => h y (List.mem_cons_of_mem x hy))
    simp [List.mapM', hx, hxs, List.replicate_succ]

/-- Explicit value of `listMean?` on an all-finite nonempty vector. -/
theorem listMean_eq_mean (l : List (Option ℝ)) (xs : List ℝ)
    (hxs : l.mapM id = some xs) (hne : xs.length ≠ 0) :
    listMean? l = some (xs.sum / (xs.length : ℝ)) := by
  unfold listMean?
  rw [hxs]
  exact if_neg hne

/-- `np.mean` of a nonempty all-finite vector is finite. -/
theorem listMean_isSome (l : List (Option ℝ)) (hne : l ≠ [])
    (h : ∀ x ∈ l, x.isSome) : ∃ a, listMean? l = some a := by
  obtain ⟨xs, hxs, hlen⟩ := mapM_id_isSome l h
  have hx0 : xs.length ≠ 0 := by
    rw [hlen]; exact fun h0 => hne (List.length_eq_zero.mp h0)
  exact ⟨xs.sum / (xs.length : ℝ), listMean_eq_mean l xs hxs hx0⟩

/-- `np.mean` of a nonempty constant finite vector is that constant. -/
theorem listMean_const (l : List (Option ℝ)) (a : ℝ) (hne : l ≠ [])
    (h : ∀ x ∈ l, x = some a) : listMean? l = some a := by
  have hn : l.length ≠ 0 := fun h0 => hne (List.length_eq_zero.mp h0)
  have hmm := listMean_eq_mean l (List.replicate l.length a) (mapM_id_const l a h)
    (by simpa using hn)
  rw [hmm]
  congr 1
  rw [List.sum_replicate, List.length_replicate, nsmul_eq_mul, mul_comm, mul_div_assoc,
    div_self (Nat.cast_ne_zero.mpr hn), mul_one]

/-- The OD output has one row per (promoted) input row. -/
theorem intensity_to_od_length (input : NDInput (Option ℝ)) (bs : ℕ) (be : Option ℕ) :
    (intensity_to_od input bs be).length = input.promote.length := by
  simp [intensity_to_od]

/-- The OD output has one entry per input entry in every row. -/
theorem intensity_to_od_rect (input : NDInput (Option ℝ)) (bs : ℕ) (be : Option ℕ)
    (w : ℕ) (hrect : input.promote.Rect w) : (intensity_to_od input bs be).Rect w := by
  intro row hrow
  simp only [intensity_to_od, List.mem_map] at hrow
  obtain ⟨r, hr, hrw⟩ := hrow
  rw [← hrw, List.length_mapIdx]
  exact hrect r hr

/-- Pointwise value of the OD output on finite data: when sample `(t,c)`
and the baseline mean of channel `c` are both finite, entry `(t,c)` is
`-log10(max(I[t][c], ε) / max(I₀(c), ε))`. -/
theorem intensity_to_od_entry (input : NDInput (Option ℝ)) (bs : ℕ) (be : Option ℕ)
    (w t c : ℕ) (xv i0 : ℝ) (hrect : input.promote.Rect w)
    (ht : t < input.promote.length) (hc : c < w)
    (hx : (input.promote.getD t []).getD c none = some xv)
    (hbm : baselineMean? input.promote bs (be.getD input.promote.length) c = some i0) :
    ((intensity_to_od input bs be).getD t []).getD c none =
      some (-Real.logb 10 (max xv _EPSILON / max i0 _EPSILON)) := by
  have ht' : t < (intensity_to_od input bs be).length := by
    rw [intensity_to_od_length]; exact ht
  have hrowlen : (input.promote[t]).length = w := hrect _ (List.getElem_mem ht)
  have hcm : c < (input.promote[t]).length := by rw [hrowlen]; exact hc
  have hx2 : (input.promote[t])[c] = some xv := by
    rw [List.getD_eq_getElem _ _ ht, List.getD_eq_getElem _ _ hcm] at hx
    exact hx
  rw [List.getD_eq_getElem _ _ ht']
  simp only [intensity_to_od, List.getElem_map]
  rw [List.getD_eq_getElem _ _ (by rw [List.length_mapIdx, hrowlen]; exact hc)]
  rw [List.getElem_mapIdx, hx2, hbm]

/-- Counterexample for C4: a baseline window lying past the end of the
data (`baseline_start = 5` on 2 samples) makes the baseline slice
empty, so `np.mean` of the empty slice is NaN; `np.maximum`, the
division and `log10` propagate it and the output is all-NaN rather
than finite. -/
theorem intensity_to_od_nan_cex :
    intensity_to_od (.twoD [[some 1], [some 2]]) 5 none = [[none], [none]] := by
  rfl

/-- C4 as amended: when every input sample is finite and the baseline
window `[baseline_start, baseline_end)` (with `baseline_end` defaulting
to the full row count) is nonempty within the data, `intensity_to_od`
returns a matrix with the shape of its (single-channel-promoted) input;
every entry equals `-log10(max(I, ε) / max(I₀, ε))` with `ε = 1e-10`
and `I₀` the finite per-channel baseline mean; and since the argument
of the logarithm is strictly positive, every output value is a
well-defined finite real even when raw intensity samples are zero or
negative.  Without the window hypothesis `np.mean` of an empty slice is
NaN and the output is all-NaN, not finite. -/
theorem intensity_to_od_contract_amended (input : NDInput (Option ℝ)) (bs : ℕ)
    (be : Option ℕ) (w : ℕ) (hrect : input.promote.Rect w)
    (hfin : ∀ row ∈ input.promote, ∀ x ∈ row, x.isSome)
    (hwin : bs < min (be.getD input.promote.length) input.promote.length) :
    (intensity_to_od input bs be).length = input.promote.length ∧
    (intensity_to_od input bs be).Rect w ∧
    ∀ t c, t < input.promote.length → c < w →
      ∃ xv i0, (input.promote.getD t []).getD c none = some xv ∧
        baselineMean? input.promote bs (be.getD input.promote.length) c = some i0 ∧
        ((intensity_to_od input bs be).getD t []).getD c none =
          some (-Real.logb 10 (max xv _EPSILON / max i0 _EPSILON)) ∧
        0 < max xv _EPSILON / max i0 _EPSILON := by
  refine ⟨intensity_to_od_length input bs be, intensity_to_od_rect input bs be w hrect, ?_⟩
  intro t c ht hc
  have hrowlen : (input.promote[t]).length = w := hrect _ (List.getElem_mem ht)
  have hcm : c < (input.promote[t]).length := by rw [hrowlen]; exact hc
  obtain ⟨xv, hxv⟩ := Option.isSome_iff_exists.mp
    (hfin _ (List.getElem_mem ht) _ (List.getElem_mem hcm))
  have hcol_len : (Mat.col ((input.promote.take (be.getD input.promote.length)).drop bs)
      c).length = min (be.getD input.promote.length) input.promote.length - bs := by
    simp [Mat.col, List.length_drop, List.length_take]
  have hcol_ne : Mat.col ((input.promote.take (be.getD input.promote.length)).drop bs)
      c ≠ [] := by
    intro hemp
    rw [hemp] at hcol_len
    simp only [List.length_nil] at hcol_len
    omega
  have hcol_fin : ∀ x ∈ Mat.col ((input.promote.take
      (be.getD input.promote.length)).drop bs) c, x.isSome := by
    intro x hxm
    simp only [Mat.col, List.mem_map] at hxm
    obtain ⟨r, hr, rfl⟩ := hxm
    have hrmem : r ∈ input.promote := List.mem_of_mem_take (List.mem_of_mem_drop hr)
    have hcr : c < r.length := by rw [hrect r hrmem]; exact hc
    rw [List.getD_eq_getElem r default hcr]
    exact hfin r hrmem _ (List.getElem_mem hcr)
  obtain ⟨i0, hi0⟩ := listMean_isSome _ hcol_ne hcol_fin
  have hbm : baselineMean? input.promote bs (be.getD input.promote.length) c = some i0 :=
    hi0
  have hx : (input.promote.getD t []).getD c none = some xv := by
    rw [List.getD_eq_getElem _ _ ht, List.getD_eq_getElem _ _ hcm]
    exact hxv
  exact ⟨xv, i0, hx, hbm,
    intensity_to_od_entry input bs be w t c xv i0 hrect ht hc hx hbm,
    div_pos (lt_of_lt_of_le _EPSILON_pos (le_max_right _ _))
      (lt_of_lt_of_le _EPSILON_pos (le_max_right _ _))⟩

/-- Witness for C4 (amended) at concrete input: a 2×1 finite input with
a zero sample (sensor dropout), default full-recording baseline: the
output has its shape and the entry at the zero sample is a finite value
with positive log argument. -/
theorem intensity_to_od_contract_amended_witness :
    (intensity_to_od (.twoD [[some 2], [some 0]]) 0 none).length =
      (NDInput.twoD [[some (2 : ℝ)], [some 0]]).promote.length ∧
    ∃ xv i0,
      ((NDInput.twoD [[some (2 : ℝ)], [some 0]]).promote.getD 1 []).getD 0 none =
        some xv ∧
      baselineMean? (NDInput.twoD [[some (2 : ℝ)], [some 0]]).promote 0
        ((none : Option ℕ).getD
          (NDInput.twoD [[some (2 : ℝ)], [some 0]]).promote.length) 0 = some i0 ∧
      ((intensity_to_od (.twoD [[some 2], [some 0]]) 0 none).getD 1 []).getD 0 none =
        some (-Real.logb 10 (max xv _EPSILON / max i0 _EPSILON)) ∧
      0 < max xv _EPSILON / max i0 _EPSILON := by
  have h := intensity_to_od_contract_amended (.twoD [[some (2 : ℝ)], [some 0]]) 0 none 1
    (by intro r hr
        simp only [NDInput.promote, List.mem_cons, List.not_mem_nil, or_false] at hr
        rcases hr with rfl | rfl <;> rfl)
    (by intro row hrow x hxm
        simp only [NDInput.promote, List.mem_cons, List.not_mem_nil, or_false] at hrow
        rcases hrow with rfl | rfl <;>
          · simp only [List.mem_cons, List.not_mem_nil, or_false] at hxm
            rcases hxm with rfl
            rfl)
    (by simp [NDInput.promote])
  exact ⟨h.1, h.2.2 1 0 (by norm_num [NDInput.promote]) Nat.one_pos⟩

end LeafNIRS.OD

namespace LeafNIRS.OD

open LeafNIRS

/-- C9.  On a per-channel constant intensity matrix of finite samples,
`intensity_to_od` with the default full-recording baseline window
returns the all-zero matrix of the same shape: the baseline mean equals
every sample, so the clamped ratio is 1 and `-log10 1 = 0`. -/
theorem intensity_to_od_constant_zero (m : Mat (Option ℝ)) (w : ℕ) (hrect : m.Rect w)
    (v : ℕ → ℝ)
    (hconst : ∀ t c, t < m.length → c < w → (m.getD t []).getD c none = some (v c)) :
    intensity_to_od (.twoD m) 0 none =
      m.map (fun row => row.map (fun _ => some (0 : ℝ))) := by
  apply List.ext_getElem
  · simp [intensity_to_od, NDInput.promote]
  · intro t ht1 ht2
    have ht : t < m.length := by
      simpa [intensity_to_od, NDInput.promote] using ht1
    have hne : m ≠ [] := by
      intro hemp
      rw [hemp] at ht
      simp at ht
    have hrowlen : (m[t]).length = w := hrect _ (List.getElem_mem ht)
    have hmean : ∀ c, c < w →
        baselineMean? (NDInput.twoD m).promote 0
          ((none : Option ℕ).getD (NDInput.twoD m).promote.length) c = some (v c) := by
      intro c hc
      unfold baselineMean?
      simp only [NDInput.promote, Option.getD_none, List.drop_zero, List.take_length]
      apply listMean_const
      · simp [Mat.col, hne]
      · intro x hxm
        simp only [Mat.col, List.mem_map] at hxm
        obtain ⟨r, hr, hxr⟩ := hxm
        obtain ⟨j, hj, rfl⟩ := List.mem_iff_getElem.mp hr
        rw [← hxr]
        have hcr : c < (m[j]).length := by rw [hrect _ (List.getElem_mem hj)]; exact hc
        rw [List.getD_eq_getElem _ default hcr]
        have hcj := hconst j c hj hc
        rw [List.getD_eq_getElem m [] hj, List.getD_eq_getElem _ none hcr] at hcj
        exact hcj
    simp only [intensity_to_od, NDInput.promote, Option.getD_none, List.getElem_map]
    apply List.ext_getElem
    · simp [hrowlen]
    · intro c hc1 hc2
      have hc : c < w := by
        rw [← hrowlen]
        simpa using hc2
      have hcm : c < (m[t]).length := by rw [hrowlen]; exact hc
      have hx : (m[t])[c] = some (v c) := by
        have hct := hconst t c ht hc
        rw [List.getD_eq_getElem m [] ht, List.getD_eq_getElem _ none hcm] at hct
        exact hct
      have hmc := hmean c hc
      simp only [NDInput.promote, Option.getD_none] at hmc
      simp only [List.getElem_map]
      rw [List.getElem_mapIdx, hx, hmc]
      show some (-Real.logb 10 (max (v c) _EPSILON / max (v c) _EPSILON)) =
        some (0 : ℝ)
      rw [div_self (ne_of_gt (lt_of_lt_of_le _EPSILON_pos (le_max_right _ _))),
        Real.logb_one, neg_zero]

/-- Witness for C9 at concrete input: the constant 2×2 matrix of (finite)
fives maps to the all-zero 2×2 matrix. -/
theorem intensity_to_od_constant_zero_witness :
    intensity_to_od (.twoD [[some 5, some 5], [some 5, some 5]]) 0 none =
      [[some (0 : ℝ), some 0], [some 0, some 0]] := by
  have h := intensity_to_od_constant_zero [[some 5, some 5], [some 5, some 5]] 2
    (by intro r hr
        simp only [List.mem_cons, List.not_mem_nil, or_false] at hr
        rcases hr with rfl | rfl <;> rfl)
    (fun _ => 5)
    (by intro t c ht hc
        have ht2 : t < 2 := by simpa using ht
        clear ht
        interval_cases t <;> interval_cases c <;> rfl)
  simpa using h

end LeafNIRS.OD

namespace LeafNIRS.Pipeline

open LeafNIRS LeafNIRS.Filter

/-- The identity filter core (stands in for `scipy` in concrete runs). -/
def ffId : FiltFilt (Option ℝ) := fun _ _ _ l => l

/-- A freshly seeded pipeline: 2×1 raw matrix, `fs = 10`, state `RAW`,
no OD computed yet. -/
def pCex : ProcessingPipeline := .init [[some 1], [some 1]] 10

/-- Counterexample for C2: on a pipeline with no OD yet, a failing
`apply_bandpass` (here `low = 0`) raises `InvalidParameters`, but the
state tag is NOT unchanged — the implicit OD promotion moved it from
`RAW` to `OD` before the filter validation raised. -/
theorem apply_bandpass_state_change_cex :
    pCex._result.state = .RAW ∧
    (pCex.apply_bandpass ffId 0 1 3).2 = .error .lowNotPos ∧
    (pCex.apply_bandpass ffId 0 1 3).1._result.state = .OD := by
  refine ⟨rfl, ?_, ?_⟩ <;>
  · simp only [ProcessingPipeline.apply_bandpass, ProcessingPipeline.init, pCex,
      ProcessingPipeline.convert_to_od, bandpass_filter, Option.isNone_none, if_true]
    norm_num

/-- The matrix `apply_bandpass` hands to the filter step: the existing
OD, or — after implicit promotion — the OD computed from the retained
raw matrix. -/
noncomputable def ProcessingPipeline.od_input (p : ProcessingPipeline) : Mat (Option ℝ) :=
  match p._result.od with
  | some o => o
  | none => OD.intensity_to_od (.twoD p._result.raw) 0 none

/-- C2 as amended: for parameters that violate the filter's validation
(against the OD matrix the filter is handed), `apply_bandpass` raises
`InvalidParameters`, and afterwards the filtered array and the stored
filter parameters are unchanged and the raw matrix is untouched.  When
an OD already existed the pipeline (including its state tag) is entirely
unchanged.  When no OD existed, the implicit promotion has computed the
OD from the raw matrix AND set the state tag to OpticalDensity — the
promotion, including this state-tag change, is not rolled back.
(`hreach`: in every reachable pipeline a missing OD implies a missing
filtered array.) -/
theorem apply_bandpass_invalid_leaves_state (ff : FiltFilt (Option ℝ)) (p : ProcessingPipeline)
    (low high : ℚ) (order : ℕ)
    (hreach : p._result.od = none → p._result.filtered = none)
    (hviol : invalidParams p.od_input.length p._fs low high order) :
    (∃ e, (p.apply_bandpass ff low high order).2 = .error e) ∧
    (p.apply_bandpass ff low high order).1._result.filtered = p._result.filtered ∧
    (p.apply_bandpass ff low high order).1._result.filter_low = p._result.filter_low ∧
    (p.apply_bandpass ff low high order).1._result.filter_high = p._result.filter_high ∧
    (p.apply_bandpass ff low high order).1._result.filter_order = p._result.filter_order ∧
    (p.apply_bandpass ff low high order).1._result.raw = p._result.raw ∧
    (∀ od0, p._result.od = some od0 → (p.apply_bandpass ff low high order).1 = p) ∧
    (p._result.od = none →
      (p.apply_bandpass ff low high order).1._result.od =
        some (OD.intensity_to_od (.twoD p._result.raw) 0 none) ∧
      (p.apply_bandpass ff low high order).1._result.state = .OD) := by
  cases ho : p._result.od with
  | some od0 =>
    have hin : p.od_input = od0 := by
      unfold ProcessingPipeline.od_input
      rw [ho]
    rw [hin] at hviol
    obtain ⟨e, he⟩ := (bandpass_isError_iff ff (.twoD od0) p._fs low high order).mpr (by
      unfold invalidParams at hviol
      rcases hviol with h | h | h | h
      exacts [Or.inl h, Or.inr (Or.inl h), Or.inr (Or.inr (Or.inl h)),
        Or.inr (Or.inr (Or.inr (Or.inl h)))])
    have happ : p.apply_bandpass ff low high order = (p, .error e) := by
      unfold ProcessingPipeline.apply_bandpass
      simp only [ho, Option.isNone_some, Bool.false_eq_true, if_false, Option.getD_some, he]
    rw [happ]
    exact ⟨⟨e, rfl⟩, rfl, rfl, rfl, rfl, rfl, fun _ _ => rfl,
      fun hn => Option.noConfusion hn⟩
  | none =>
    have hin : p.od_input = OD.intensity_to_od (.twoD p._result.raw) 0 none := by
      unfold ProcessingPipeline.od_input
      rw [ho]
    rw [hin] at hviol
    obtain ⟨e, he⟩ :=
      (bandpass_isError_iff ff (.twoD (OD.intensity_to_od (.twoD p._result.raw) 0 none))
        p._fs low high order).mpr (by
      unfold invalidParams at hviol
      rcases hviol with h | h | h | h
      exacts [Or.inl h, Or.inr (Or.inl h), Or.inr (Or.inr (Or.inl h)),
        Or.inr (Or.inr (Or.inr (Or.inl h)))])
    have happ : p.apply_bandpass ff low high order =
        ({ p with _result := { p._result with
            od := some (OD.intensity_to_od (.twoD p._result.raw) 0 none),
            state := .OD, filtered := none } }, .error e) := by
      unfold ProcessingPipeline.apply_bandpass ProcessingPipeline.convert_to_od
      simp only [ho, Option.isNone_none, if_true, Option.getD_some, he]
    rw [happ]
    exact ⟨⟨e, rfl⟩, (hreach ho).symm, rfl, rfl, rfl, rfl,
      fun od0 hod0 => Option.noConfusion hod0,
      fun _ => ⟨rfl, rfl⟩⟩

/-- Witness for C2 (amended) at concrete input: `pCex` (no OD yet) with
`low = 0` — the call errors, `filtered` stays `None`, the parameters
stay zero, and the promoted OD survives with state `OD`. -/
theorem apply_bandpass_invalid_leaves_state_witness :
    (∃ e, (pCex.apply_bandpass ffId 0 1 3).2 = .error e) ∧
    (pCex.apply_bandpass ffId 0 1 3).1._result.filtered = pCex._result.filtered ∧
    (pCex.apply_bandpass ffId 0 1 3).1._result.filter_low = pCex._result.filter_low ∧
    (pCex.apply_bandpass ffId 0 1 3).1._result.od =
      some (OD.intensity_to_od (.twoD pCex._result.raw) 0 none) ∧
    (pCex.apply_bandpass ffId 0 1 3).1._result.state = .OD := by
  have h := apply_bandpass_invalid_leaves_state ffId pCex 0 1 3 (fun _ => rfl)
    (Or.inl le_rfl)
  exact ⟨h.1, h.2.1, h.2.2.1, (h.2.2.2.2.2.2.2 rfl).1, (h.2.2.2.2.2.2.2 rfl).2⟩

end LeafNIRS.Pipeline
